import Mathlib

/-!
Verification of PyQueryBuilder: a fluent SQL query builder (core/builder.py),
a duplicate SQL generator (sql/generator.py), a schema registry with join-path
derivation (schema/registry.py) and an alias generator (schema/alias_generator.py).

The Python code is shallowly embedded: strings are Lean `String`s manipulated
through character-list operations mirroring Python `str` methods, dictionaries
are insertion-ordered association lists, optional / absent values are `Option`,
and Python truthiness is made explicit at each use site.
-/

set_option maxRecDepth 10000

namespace PyQB

/-! ### Python string primitives, modelled on character lists -/

/-- Python `str.lower()` (per-character lowercase; ASCII-faithful). -/
def pyLower (s : String) : String := String.mk (s.data.map Char.toLower)

/-- Python `str.upper()` (per-character uppercase; ASCII-faithful). -/
def pyUpper (s : String) : String := String.mk (s.data.map Char.toUpper)

/-- Python `str.strip()`: drop whitespace from both ends. -/
def pyStrip (s : String) : String :=
  String.mk (((s.data.dropWhile Char.isWhitespace).reverse.dropWhile Char.isWhitespace).reverse)

/-- Python slicing `s[:n]`. -/
def pyTake (s : String) (n : Nat) : String := String.mk (s.data.take n)

/-- Python `len(s)` (number of code points). -/
def pyLen (s : String) : Nat := s.data.length

/-- Does the character list begin with the pattern? -/
def startsWithL : List Char → List Char → Bool
  | _, [] => true
  | [], _ :: _ => false
  | c :: cs, p :: ps => c = p && startsWithL cs ps

/-- Python `pat in s` on character lists: contiguous-substring test. -/
def containsL : List Char → List Char → Bool
  | [], pat => pat.isEmpty
  | c :: cs, pat => startsWithL (c :: cs) pat || containsL cs pat

/-- Python `pat in s`. -/
def pyContains (s pat : String) : Bool := containsL s.data pat.data

/-- Python `s.split(sep)` on character lists, with a fuel argument; each
recursive call consumes at least one character of `l` when the separator is
non-empty, so fuel `l.length` always suffices. Splits at every leftmost
non-overlapping occurrence of the separator. -/
def splitL : Nat → List Char → List Char → List (List Char)
  | 0, l, _ => [l]
  | fuel + 1, l, pat =>
    if startsWithL l pat && !pat.isEmpty then
      [] :: splitL fuel (l.drop pat.length) pat
    else
      match l with
      | [] => [[]]
      | c :: cs =>
        match splitL fuel cs pat with
        | [] => [[c]]
        | h :: t => (c :: h) :: t

/-- Python `s.split(sep)` for a non-empty separator (the source only ever
splits on `" as "`, `" AS "` and `"_"`). -/
def pySplit (s sep : String) : List String :=
  (splitL s.data.length s.data sep.data).map String.mk

/-- Python truthiness of an optional string: `None` and `""` are falsy. -/
def optStrTruthy : Option String → Bool
  | none => false
  | some s => s ≠ ""

/-! ### Insertion-ordered dictionaries as association lists -/

/-- A Python `dict` with string keys: an insertion-ordered association list. -/
abbrev Dict (α : Type) := List (String × α)

/-- `d.get(k)` / `d[k]` lookup. -/
def dictGet {α : Type} : Dict α → String → Option α
  | [], _ => none
  | (k', v') :: rest, k => if k' = k then some v' else dictGet rest k

/-- `d[k] = v`: update in place (keeping the key's position) if the key is
present, else append at the end — Python `dict` assignment semantics. -/
def dictInsert {α : Type} : Dict α → String → α → Dict α
  | [], k, v => [(k, v)]
  | (k', v') :: rest, k, v =>
    if k' = k then (k, v) :: rest else (k', v') :: dictInsert rest k v

/-- Two-level lookup `d[k1][k2]` for nested dictionaries. -/
def dictGet2 {α : Type} (d : Dict (Dict α)) (k1 k2 : String) : Option α :=
  match dictGet d k1 with
  | some inner => dictGet inner k2
  | none => none

/-! ### Data model of `core/builder.py`

Python values appearing as WHERE-condition operands and operators.  The
`where` method's optional parameters default to `None`; `Option.none` models
both an absent argument and an explicit `None` (indistinguishable in Python).
-/

/-- A Python value bound as a query parameter or passed as an operator. -/
inductive Value where
  | str (s : String)
  | int (n : Int)
  | bool (b : Bool)
  deriving DecidableEq

/-- Python `str(v)` as used by f-string interpolation. -/
def Value.pyStr : Value → String
  | .str s => s
  | .int n => toString n
  | .bool b => if b then "True" else "False"

/-- `str(x)` for the optional values stored in conditions: `str(None)` is
`"None"`. -/
def pyStrOptValue : Option Value → String
  | none => "None"
  | some v => v.pyStr

/-- A table argument to `from_table` / `join`: either a Python `str`, or a
non-string object (e.g. a subquery), carried with its `str()` rendering. -/
inductive TableInput where
  | str (s : String)
  | expr (txt : String)
  deriving DecidableEq

/-- `str(table)` as used when rendering FROM/JOIN clauses. -/
def TableInput.pyStr : TableInput → String
  | .str s => s
  | .expr t => t

/-- The `self._from_table` dictionary: `table` always set, `alias` optional. -/
structure FromSpec where
  table : TableInput
  alias_ : Option String
  deriving DecidableEq

/-- One element of `self._joins`: `table` and `type` always set by `join()`,
`alias` and `condition` optional keys. -/
structure JoinSpec where
  table : TableInput
  alias_ : Option String
  condition : Option String
  type : String
  deriving DecidableEq

/-- One element of `self._where_conditions`: the dictionary appended by
`where()`. -/
structure Condition where
  field : String
  operator : Option Value
  value : Option Value
  deriving DecidableEq

/-- One element of `self._order_by`. -/
structure OrderSpec where
  field : String
  direction : String
  deriving DecidableEq

/-- The parameter dictionary returned by `build()` / `generate()`. -/
abbrev Params := Dict (Option Value)

/-- The mutable query components of a `QueryBuilder` instance (the schema
registry and connector fields play no part in query building). -/
structure QueryBuilder where
  select_fields : List String
  from_table : Option FromSpec
  joins : List JoinSpec
  where_conditions : List Condition
  order_by : List OrderSpec
  limit : Option Int
  offset : Option Int
  deriving DecidableEq

/-- A freshly constructed `QueryBuilder` (`__init__`). -/
def QueryBuilder.empty : QueryBuilder :=
  ⟨[], none, [], [], [], none, none⟩

/-- `QueryBuilder.select(*fields)`: append each field. -/
def select (qb : QueryBuilder) (fields : List String) : QueryBuilder :=
  { qb with select_fields := qb.select_fields ++ fields }

/-- `QueryBuilder.from_table(table)`.  The first branch tests
`" as " in table.lower()` and splits `table.lower()`; the second tests
`" AS " in table` and splits `table` — transcribed as in the source. -/
def from_table (qb : QueryBuilder) (table : TableInput) : QueryBuilder :=
  match table with
  | TableInput.str s =>
    if pyContains (pyLower s) " as " then
      let parts := pySplit (pyLower s) " as "
      let ft : FromSpec :=
        { table := TableInput.str (pyStrip (parts.getD 0 "")),
          alias_ := some (pyStrip (parts.getD 1 "")) }
      { qb with from_table := some ft }
    else if pyContains s " AS " then
      let parts := pySplit s " AS "
      let ft : FromSpec :=
        { table := TableInput.str (pyStrip (parts.getD 0 "")),
          alias_ := some (pyStrip (parts.getD 1 "")) }
      { qb with from_table := some ft }
    else
      let ft : FromSpec := { table := table, alias_ := none }
      { qb with from_table := some ft }
  | _ =>
    let ft : FromSpec := { table := table, alias_ := none }
    { qb with from_table := some ft }

/-- `QueryBuilder.join(table, condition=None, join_type="INNER")`.  Table and
alias are parsed exactly as in `from_table`; the condition key is set only when
the argument is truthy (`if condition:`), and `type` is always set to
`join_type.upper()`. -/
def join (qb : QueryBuilder) (table : TableInput) (condition : Option String)
    (join_type : String) : QueryBuilder :=
  let table_info : TableInput × Option String :=
    match table with
    | TableInput.str s =>
      if pyContains (pyLower s) " as " then
        let parts := pySplit (pyLower s) " as "
        (TableInput.str (pyStrip (parts.getD 0 "")), some (pyStrip (parts.getD 1 "")))
      else if pyContains s " AS " then
        let parts := pySplit s " AS "
        (TableInput.str (pyStrip (parts.getD 0 "")), some (pyStrip (parts.getD 1 "")))
      else
        (table, none)
    | _ => (table, none)
  let cond : Option String :=
    match condition with
    | some c => if c = "" then none else some c
    | none => none
  { qb with joins := qb.joins ++
      [{ table := table_info.1, alias_ := table_info.2, condition := cond,
         type := pyUpper join_type }] }

/-- `QueryBuilder.where(field, operator=None, value=None)`: when the third
argument is `None` and the second is not, the second argument becomes the
value and the operator becomes `"="`; otherwise both are stored literally. -/
def where_ (qb : QueryBuilder) (field : String) (operator : Option Value)
    (value : Option Value) : QueryBuilder :=
  let shifted : Option Value × Option Value :=
    match value, operator with
    | none, some op => (some (Value.str "="), some op)
    | v, op => (op, v)
  { qb with where_conditions := qb.where_conditions ++
      [{ field := field, operator := shifted.1, value := shifted.2 }] }

/-- `QueryBuilder.order_by(field, direction="asc")`. -/
def order_by (qb : QueryBuilder) (field : String) (direction : String) : QueryBuilder :=
  { qb with order_by := qb.order_by ++ [{ field := field, direction := direction }] }

/-- `QueryBuilder.limit(limit)`. -/
def limit (qb : QueryBuilder) (l : Int) : QueryBuilder := { qb with limit := some l }

/-- `QueryBuilder.offset(offset)`. -/
def offset (qb : QueryBuilder) (o : Int) : QueryBuilder := { qb with offset := some o }

/-- The body of `build()`'s WHERE loop: one iteration extends the rendered
parts, assigns `params[f"p{param_idx}"] = value`, and increments the index. -/
def whereStep (acc : List String × Params × Nat) (condition : Condition) :
    List String × Params × Nat :=
  let param_name := "p" ++ Nat.repr acc.2.2
  (acc.1 ++ [condition.field ++ " " ++ pyStrOptValue condition.operator ++ " :" ++ param_name],
   dictInsert acc.2.1 param_name condition.value,
   acc.2.2 + 1)

/-- `QueryBuilder.build()`: renders the accumulated state into the SQL string
and parameter dictionary, clause by clause in source order.  Truthiness checks
(`if alias:`, `if condition:`, non-empty lists) are made explicit. -/
def build (qb : QueryBuilder) : String × Params :=
  let params : Params := []
  let param_idx : Nat := 0
  let sql_parts : List String := []
  -- SELECT clause
  let select_clause :=
    if qb.select_fields ≠ [] then
      "SELECT " ++ String.intercalate ", " qb.select_fields
    else "SELECT *"
  let sql_parts := sql_parts ++ [select_clause]
  -- FROM clause
  let sql_parts :=
    match qb.from_table with
    | some ft =>
      match ft.alias_ with
      | some a =>
        if a ≠ "" then sql_parts ++ ["FROM " ++ ft.table.pyStr ++ " AS " ++ a]
        else sql_parts ++ ["FROM " ++ ft.table.pyStr]
      | none => sql_parts ++ ["FROM " ++ ft.table.pyStr]
    | none => sql_parts
  -- JOIN clauses
  let sql_parts := sql_parts ++ qb.joins.map (fun j =>
    let base :=
      match j.alias_ with
      | some a =>
        if a ≠ "" then j.type ++ " JOIN " ++ j.table.pyStr ++ " AS " ++ a
        else j.type ++ " JOIN " ++ j.table.pyStr
      | none => j.type ++ " JOIN " ++ j.table.pyStr
    match j.condition with
    | some c => if c ≠ "" then base ++ " ON " ++ c else base
    | none => base)
  -- WHERE clause
  let whereAcc := qb.where_conditions.foldl whereStep ([], params, param_idx)
  let params := whereAcc.2.1
  let sql_parts :=
    if qb.where_conditions ≠ [] then
      sql_parts ++ ["WHERE " ++ String.intercalate " AND " whereAcc.1]
    else sql_parts
  -- ORDER BY clause
  let sql_parts :=
    if qb.order_by ≠ [] then
      sql_parts ++ ["ORDER BY " ++ String.intercalate ", "
        (qb.order_by.map (fun o => o.field ++ " " ++ pyUpper o.direction))]
    else sql_parts
  -- LIMIT and OFFSET
  let sql_parts :=
    match qb.limit with
    | some l => sql_parts ++ ["LIMIT " ++ toString l]
    | none => sql_parts
  let sql_parts :=
    match qb.offset with
    | some o => sql_parts ++ ["OFFSET " ++ toString o]
    | none => sql_parts
  (String.intercalate " " sql_parts, params)

/-- `build()` in explicit state-passing form.  The source method only reads
`self._*` fields and assigns none of them, so its effect on the receiver is
the identity. -/
def buildM (qb : QueryBuilder) : QueryBuilder × (String × Params) :=
  (qb, build qb)

/-! ### `sql/generator.py`: the duplicate compiler -/

/-- The plain analyzed-query record passed to `SQLGenerator.generate`, holding
the same components as the builder's state (`generate` never reads the
generator's `dialect` field). -/
structure AnalyzedQuery where
  select_fields : List String
  from_table : Option FromSpec
  joins : List JoinSpec
  where_conditions : List Condition
  order_by : List OrderSpec
  limit : Option Int
  offset : Option Int
  deriving DecidableEq

/-- `SQLGenerator.generate(analyzed_query)`: the same clause-by-clause
rendering as `build()`, read off the plain record via `.get` with the
defaults shown in the source (`[]`, `{}`, `None`). -/
def generate (aq : AnalyzedQuery) : String × Params :=
  let params : Params := []
  let sql_parts : List String := []
  -- Generate SELECT clause
  let select_clause :=
    if aq.select_fields ≠ [] then
      "SELECT " ++ String.intercalate ", " aq.select_fields
    else "SELECT *"
  let sql_parts := sql_parts ++ [select_clause]
  -- Generate FROM clause
  let sql_parts :=
    match aq.from_table with
    | some ft =>
      match ft.alias_ with
      | some a =>
        if a ≠ "" then sql_parts ++ ["FROM " ++ ft.table.pyStr ++ " AS " ++ a]
        else sql_parts ++ ["FROM " ++ ft.table.pyStr]
      | none => sql_parts ++ ["FROM " ++ ft.table.pyStr]
    | none => sql_parts
  -- Generate JOIN clauses
  let sql_parts := sql_parts ++ aq.joins.map (fun j =>
    let base :=
      match j.alias_ with
      | some a =>
        if a ≠ "" then j.type ++ " JOIN " ++ j.table.pyStr ++ " AS " ++ a
        else j.type ++ " JOIN " ++ j.table.pyStr
      | none => j.type ++ " JOIN " ++ j.table.pyStr
    match j.condition with
    | some c => if c ≠ "" then base ++ " ON " ++ c else base
    | none => base)
  -- Generate WHERE clause
  let param_idx : Nat := 0
  let whereAcc := aq.where_conditions.foldl whereStep ([], params, param_idx)
  let params := whereAcc.2.1
  let sql_parts :=
    if aq.where_conditions ≠ [] then
      sql_parts ++ ["WHERE " ++ String.intercalate " AND " whereAcc.1]
    else sql_parts
  -- Generate ORDER BY clause
  let sql_parts :=
    if aq.order_by ≠ [] then
      sql_parts ++ ["ORDER BY " ++ String.intercalate ", "
        (aq.order_by.map (fun o => o.field ++ " " ++ pyUpper o.direction))]
    else sql_parts
  -- Generate LIMIT and OFFSET
  let sql_parts :=
    match aq.limit with
    | some l => sql_parts ++ ["LIMIT " ++ toString l]
    | none => sql_parts
  let sql_parts :=
    match aq.offset with
    | some o => sql_parts ++ ["OFFSET " ++ toString o]
    | none => sql_parts
  (String.intercalate " " sql_parts, params)

/-- Package a builder's components as the plain record §4.5 feeds to the
alternate compiler. -/
def toAnalyzed (qb : QueryBuilder) : AnalyzedQuery :=
  { select_fields := qb.select_fields, from_table := qb.from_table,
    joins := qb.joins, where_conditions := qb.where_conditions,
    order_by := qb.order_by, limit := qb.limit, offset := qb.offset }

/-! ### `schema/alias_generator.py` -/

/-- `generate_alias(table_name)`: split on `"_"`; a single word yields its
first two characters lowercased when longer than 3 characters, else its first
character lowercased; several words yield the lowercased initials of the
non-empty words.  (On the empty string the source raises `IndexError` from
`table_name[0]`; no caller reaches that case, and this embedding returns `""`
there.) -/
def generate_alias (table_name : String) : String :=
  let words := pySplit table_name "_"
  if words.length = 1 then
    if pyLen table_name > 3 then pyLower (pyTake table_name 2)
    else pyLower (pyTake table_name 1)
  else
    pyLower (String.join ((words.filter (fun w => w ≠ "")).map (fun w => pyTake w 1)))

/-! ### `schema/registry.py` -/

/-- Per-table metadata: only the optional declared `alias` key matters to the
core (`some` models key presence, including a present empty string). -/
structure TableInfo where
  alias_ : Option String
  deriving DecidableEq

/-- A relationship record; each field is read with `.get`, so absent keys are
`none`. -/
structure Rel where
  source_table : Option String
  source_column : Option String
  target_table : Option String
  target_column : Option String
  deriving DecidableEq

/-- A derived join-path entry `{table, alias, condition}`. -/
structure JoinPathEntry where
  table : String
  alias_ : String
  condition : String
  deriving DecidableEq

/-- The schema-metadata record handed to `register_schema`; `join_paths` is
optional (`"join_paths" in schema_metadata`), the others default to `{}` via
`.get`. -/
structure SchemaMetadata where
  tables : Dict TableInfo
  columns : Dict String
  relationships : Dict Rel
  join_paths : Option (Dict (Dict JoinPathEntry))
  deriving DecidableEq

/-- The `SchemaRegistry` state. -/
structure SchemaRegistry where
  tables : Dict TableInfo
  columns : Dict String
  relationships : Dict Rel
  join_paths : Dict (Dict JoinPathEntry)
  alias_map : Dict String
  deriving DecidableEq

/-- `SchemaRegistry.__init__`: all five dictionaries start empty. -/
def SchemaRegistry.empty : SchemaRegistry := ⟨[], [], [], [], []⟩

/-- The `tables.get(target_table, {}).get("alias")` lookup inside
`_add_join_path`. -/
def declaredAlias (tables : Dict TableInfo) (target_table : String) : Option String :=
  match dictGet tables target_table with
  | some ti => ti.alias_
  | none => none

/-- The target-alias resolution inside `_add_join_path`: the declared alias
when truthy, else `target_table[0].lower()`. -/
def resolveAlias (tables : Dict TableInfo) (target_table : String) : String :=
  match declaredAlias tables target_table with
  | some a => if a = "" then pyLower (pyTake target_table 1) else a
  | none => pyLower (pyTake target_table 1)

/-- `SchemaRegistry._add_join_path`: resolve the target alias, compose the ON
condition, and store the entry under `join_paths[source_table][target_table]`
(creating the inner dictionary when absent). -/
def _add_join_path (r : SchemaRegistry) (source_table target_table source_column
    target_column : String) : SchemaRegistry :=
  let target_alias := resolveAlias r.tables target_table
  let condition :=
    source_table ++ "." ++ source_column ++ " = " ++ target_alias ++ "." ++ target_column
  let inner :=
    match dictGet r.join_paths source_table with
    | some d => d
    | none => []
  let entry : JoinPathEntry :=
    { table := target_table, alias_ := target_alias, condition := condition }
  { r with join_paths := dictInsert r.join_paths source_table (dictInsert inner target_table entry) }

/-- The truthiness test `all([source_table, target_table, source_column,
target_column])`: every field present and non-empty. -/
def relComplete (rel : Rel) : Bool :=
  optStrTruthy rel.source_table && optStrTruthy rel.target_table &&
    optStrTruthy rel.source_column && optStrTruthy rel.target_column

/-- One iteration of `_build_join_paths`'s loop over `relationships.items()`. -/
def buildJoinPathStep (acc : SchemaRegistry) (p : String × Rel) : SchemaRegistry :=
  match p.2.source_table, p.2.target_table, p.2.source_column, p.2.target_column with
  | some st, some tt, some sc, some tc =>
    if st ≠ "" ∧ tt ≠ "" ∧ sc ≠ "" ∧ tc ≠ "" then _add_join_path acc st tt sc tc
    else acc
  | _, _, _, _ => acc

/-- `SchemaRegistry._build_join_paths`: derive a join path from every
relationship whose four fields are all truthy; the others are skipped. -/
def _build_join_paths (r : SchemaRegistry) : SchemaRegistry :=
  r.relationships.foldl buildJoinPathStep r

/-- One iteration of `register_schema`'s alias-map loop: a table whose info
carries an `alias` key (presence test, not truthiness) is recorded under that
alias. -/
def aliasMapStep (acc : SchemaRegistry) (p : String × TableInfo) : SchemaRegistry :=
  match p.2.alias_ with
  | some a => { acc with alias_map := dictInsert acc.alias_map a p.1 }
  | none => acc

/-- `SchemaRegistry.register_schema(schema_metadata)`: assign `tables`,
`columns` and `relationships` from the metadata; scan the new `tables` into
`alias_map`; adopt supplied `join_paths` verbatim, else derive them. -/
def register_schema (r : SchemaRegistry) (m : SchemaMetadata) : SchemaRegistry :=
  let r := { r with tables := m.tables, columns := m.columns,
                    relationships := m.relationships }
  let r := m.tables.foldl aliasMapStep r
  match m.join_paths with
  | some jp => { r with join_paths := jp }
  | none => _build_join_paths r

/-! ### Injectivity of the decimal rendering used for parameter names

Parameter names are `"p" ++ Nat.repr idx`; distinctness of the names reduces
to injectivity of `Nat.repr`, proved here through a structurally recursive
digit list shown equal to the fuelled `Nat.toDigitsCore`. -/

/-- Decimal digit characters of `n`, most significant first. -/
def natRep (n : Nat) : List Char :=
  if n < 10 then [Nat.digitChar n]
  else natRep (n / 10) ++ [Nat.digitChar (n % 10)]
termination_by n
decreasing_by exact Nat.div_lt_self (by omega) (by omega)

/-- One step of decimal decoding. -/
def decStep (a : Nat) (c : Char) : Nat := 10 * a + (c.toNat - 48)

/-- The one rule both setters implement: when the lowercased specifier
contains `" as "`, the stored table and alias are the trimmed first and second
segments of the lowercased specifier split on `" as "` (the original casing is
lost); otherwise the whole input is the table and there is no alias. -/
def parseTableRef (t : TableInput) : FromSpec :=
  match t with
  | TableInput.str s =>
    if pyContains (pyLower s) " as " then
      let parts := pySplit (pyLower s) " as "
      ⟨TableInput.str (pyStrip (parts.getD 0 "")), some (pyStrip (parts.getD 1 ""))⟩
    else ⟨t, none⟩
  | _ => ⟨t, none⟩

/-- The clause sequence in the fixed order stated by the specification:
SELECT, FROM, the JOINs in insertion order, WHERE, ORDER BY, LIMIT, OFFSET,
each optional clause present exactly when its component is; a spec-side
definition compared against `build`. -/
def specOrderedClauses (qb : QueryBuilder) : List String :=
  [if qb.select_fields ≠ [] then
      "SELECT " ++ String.intercalate ", " qb.select_fields
    else "SELECT *"]
  ++ (match qb.from_table with
      | some ft =>
        [match ft.alias_ with
         | some a =>
           if a ≠ "" then "FROM " ++ ft.table.pyStr ++ " AS " ++ a
           else "FROM " ++ ft.table.pyStr
         | none => "FROM " ++ ft.table.pyStr]
      | none => [])
  ++ qb.joins.map (fun j =>
      let base :=
        match j.alias_ with
        | some a =>
          if a ≠ "" then j.type ++ " JOIN " ++ j.table.pyStr ++ " AS " ++ a
          else j.type ++ " JOIN " ++ j.table.pyStr
        | none => j.type ++ " JOIN " ++ j.table.pyStr
      match j.condition with
      | some c => if c ≠ "" then base ++ " ON " ++ c else base
      | none => base)
  ++ (if qb.where_conditions ≠ [] then
        ["WHERE " ++ String.intercalate " AND "
          (qb.where_conditions.foldl whereStep ([], [], 0)).1]
      else [])
  ++ (if qb.order_by ≠ [] then
        ["ORDER BY " ++ String.intercalate ", "
          (qb.order_by.map (fun o => o.field ++ " " ++ pyUpper o.direction))]
      else [])
  ++ (match qb.limit with | some l => ["LIMIT " ++ toString l] | none => [])
  ++ (match qb.offset with | some o => ["OFFSET " ++ toString o] | none => [])

/-- The relationship `p` derives (and hence may overwrite) the join-path slot
`(s, t)`. -/
def producesPair (rel : Rel) (s t : String) : Prop :=
  relComplete rel = true ∧ rel.source_table = some s ∧ rel.target_table = some t

instance (rel : Rel) (s t : String) : Decidable (producesPair rel s t) := by
  unfold producesPair; infer_instance

/-! ### Dictionary lemmas -/

theorem dictGet_insert_self {α : Type} (d : Dict α) (k : String) (v : α) :
    dictGet (dictInsert d k v) k = some v := by
  induction d with
  | nil => simp [dictGet, dictInsert]
  | cons p rest ih =>
    by_cases h : p.1 = k
    · simp [dictInsert, dictGet, h]
    · simp [dictInsert, dictGet, h, ih]

theorem dictGet_insert_ne {α : Type} (d : Dict α) (k k' : String) (v : α) (h : k ≠ k') :
    dictGet (dictInsert d k v) k' = dictGet d k' := by
  induction d with
  | nil => simp [dictGet, dictInsert, h]
  | cons p rest ih =>
    by_cases hp : p.1 = k
    · simp [dictInsert, dictGet, hp, h]
    · simp [dictInsert, dictGet, hp, ih]

theorem dictGet_none_insert_eq_append {α : Type} (d : Dict α) (k : String) (v : α)
    (h : dictGet d k = none) : dictInsert d k v = d ++ [(k, v)] := by
  induction d with
  | nil => simp [dictInsert]
  | cons p rest ih =>
    by_cases hp : p.1 = k
    · simp [dictGet, hp] at h
    · simp [dictGet, hp] at h
      simp [dictInsert, hp, ih h]

theorem dictGet_append_of_none {α : Type} (d₁ d₂ : Dict α) (k : String)
    (h : dictGet d₁ k = none) : dictGet (d₁ ++ d₂) k = dictGet d₂ k := by
  induction d₁ with
  | nil => simp
  | cons p rest ih =>
    by_cases hp : p.1 = k
    · simp [dictGet, hp] at h
    · simp [dictGet, hp] at h ⊢
      exact ih h

theorem toDigitsCore10_eq : ∀ (f n : Nat) (l : List Char), n < f →
    Nat.toDigitsCore 10 f n l = natRep n ++ l := by
  intro f
  induction f with
  | zero => intro n l h; omega
  | succ f ih =>
    intro n l _
    by_cases h10 : n / 10 = 0
    · have hn : n < 10 := by omega
      simp [Nat.toDigitsCore, h10, natRep, hn, Nat.mod_eq_of_lt hn]
    · have hlt : n / 10 < f := by
        have := Nat.div_lt_self (show 0 < n by omega) (show 1 < 10 by omega)
        omega
      have hstep : Nat.toDigitsCore 10 (f + 1) n l
          = Nat.toDigitsCore 10 f (n / 10) (Nat.digitChar (n % 10) :: l) := by
        simp [Nat.toDigitsCore, h10]
      rw [hstep, ih _ _ hlt]
      have hn : ¬ n < 10 := by omega
      conv_rhs => rw [natRep]
      rw [if_neg hn, List.append_assoc]
      rfl

theorem repr_eq_natRep (n : Nat) : Nat.repr n = (natRep n).asString := by
  have h := toDigitsCore10_eq (n + 1) n [] (Nat.lt_succ_self n)
  simp only [Nat.repr, Nat.toDigits, h, List.append_nil]

theorem digitChar_decode : ∀ d : Fin 10, (Nat.digitChar d.val).toNat - 48 = d.val := by decide

theorem natRep_foldl : ∀ (n : Nat) (a : Nat),
    (natRep n).foldl decStep a = a * 10 ^ (natRep n).length + n := by
  intro n
  induction n using Nat.strong_induction_on with
  | _ n ih =>
    intro a
    by_cases hn : n < 10
    · rw [natRep]
      have hd := digitChar_decode ⟨n, hn⟩
      simp only [hn, if_true, List.foldl_cons, List.foldl_nil, List.length_cons,
        List.length_nil, decStep, hd]
      simp [pow_succ]
      omega
    · rw [natRep]
      simp only [hn, if_false]
      have hlt : n / 10 < n := Nat.div_lt_self (by omega) (by omega)
      have hmod := digitChar_decode ⟨n % 10, Nat.mod_lt n (by omega)⟩
      rw [List.foldl_append]
      simp only [List.foldl_cons, List.foldl_nil, decStep, hmod, ih (n / 10) hlt a,
        List.length_append, List.length_cons, List.length_nil]
      have hdm : 10 * (n / 10) + n % 10 = n := by omega
      calc 10 * (a * 10 ^ (natRep (n / 10)).length + n / 10) + n % 10
          = a * 10 ^ (natRep (n / 10)).length * 10 + (10 * (n / 10) + n % 10) := by ring
        _ = a * 10 ^ ((natRep (n / 10)).length + 1) + n := by rw [hdm, pow_succ]; ring

theorem natRep_inj {n m : Nat} (h : natRep n = natRep m) : n = m := by
  have hn := natRep_foldl n 0
  have hm := natRep_foldl m 0
  rw [h] at hn
  omega

theorem nat_repr_injective {n m : Nat} (h : Nat.repr n = Nat.repr m) : n = m := by
  rw [repr_eq_natRep, repr_eq_natRep] at h
  exact natRep_inj (congrArg String.data h)

theorem pName_injective {i j : Nat} (h : "p" ++ Nat.repr i = "p" ++ Nat.repr j) : i = j := by
  have hd := congrArg String.data h
  simp only [String.data_append] at hd
  have : (Nat.repr i).data = (Nat.repr j).data := by
    simpa using hd
  exact nat_repr_injective (congrArg String.mk this)

/-! ### The WHERE loop's parameter dictionary -/

theorem foldl_whereStep_params :
    ∀ (conds : List Condition) (parts : List String) (ps : Params) (i : Nat),
      (∀ j, i ≤ j → dictGet ps ("p" ++ Nat.repr j) = none) →
      (conds.foldl whereStep (parts, ps, i)).2.1
        = ps ++ (conds.zip (List.range' i conds.length)).map
            (fun pc => ("p" ++ Nat.repr pc.2, pc.1.value)) := by
  intro conds
  induction conds with
  | nil => intro parts ps i _; simp
  | cons c rest ih =>
    intro parts ps i h
    have hnone : dictGet ps ("p" ++ Nat.repr i) = none := h i (Nat.le_refl i)
    have hins := dictGet_none_insert_eq_append ps ("p" ++ Nat.repr i) c.value hnone
    have hstep : whereStep (parts, ps, i) c
        = (parts ++ [c.field ++ " " ++ pyStrOptValue c.operator ++ " :" ++ ("p" ++ Nat.repr i)],
           ps ++ [("p" ++ Nat.repr i, c.value)], i + 1) := by
      simp [whereStep, hins]
    have hnext : ∀ j, i + 1 ≤ j →
        dictGet (ps ++ [("p" ++ Nat.repr i, c.value)]) ("p" ++ Nat.repr j) = none := by
      intro j hj
      have h1 : dictGet ps ("p" ++ Nat.repr j) = none := h j (by omega)
      rw [dictGet_append_of_none _ _ _ h1]
      have hne : ("p" ++ Nat.repr i : String) ≠ "p" ++ Nat.repr j := by
        intro he
        have := pName_injective he
        omega
      simp [dictGet, hne]
    simp only [List.foldl_cons, hstep]
    rw [ih _ _ _ hnext]
    simp [List.range', List.append_assoc]

/-! ### Preservation lemmas for `register_schema`'s loops -/

theorem addJP_fields (r : SchemaRegistry) (st tt sc tc : String) :
    (_add_join_path r st tt sc tc).tables = r.tables
    ∧ (_add_join_path r st tt sc tc).columns = r.columns
    ∧ (_add_join_path r st tt sc tc).relationships = r.relationships
    ∧ (_add_join_path r st tt sc tc).alias_map = r.alias_map :=
  ⟨rfl, rfl, rfl, rfl⟩

theorem buildStep_fields (acc : SchemaRegistry) (p : String × Rel) :
    (buildJoinPathStep acc p).tables = acc.tables
    ∧ (buildJoinPathStep acc p).columns = acc.columns
    ∧ (buildJoinPathStep acc p).relationships = acc.relationships
    ∧ (buildJoinPathStep acc p).alias_map = acc.alias_map := by
  rcases p with ⟨rid, rel⟩
  rcases rel with ⟨st, sc, tt, tc⟩
  cases st <;> cases sc <;> cases tt <;> cases tc <;>
    simp only [buildJoinPathStep] <;> (try split) <;>
      refine ⟨?_, ?_, ?_, ?_⟩ <;> trivial

theorem foldl_buildStep_fields (rs : Dict Rel) :
    ∀ acc : SchemaRegistry,
      (rs.foldl buildJoinPathStep acc).tables = acc.tables
      ∧ (rs.foldl buildJoinPathStep acc).columns = acc.columns
      ∧ (rs.foldl buildJoinPathStep acc).relationships = acc.relationships
      ∧ (rs.foldl buildJoinPathStep acc).alias_map = acc.alias_map := by
  induction rs with
  | nil => intro acc; exact ⟨rfl, rfl, rfl, rfl⟩
  | cons p rest ih =>
    intro acc
    have h1 := buildStep_fields acc p
    have h2 := ih (buildJoinPathStep acc p)
    simp only [List.foldl_cons]
    exact ⟨h2.1.trans h1.1, h2.2.1.trans h1.2.1, h2.2.2.1.trans h1.2.2.1,
           h2.2.2.2.trans h1.2.2.2⟩

theorem aliasStep_fields (acc : SchemaRegistry) (p : String × TableInfo) :
    (aliasMapStep acc p).tables = acc.tables
    ∧ (aliasMapStep acc p).columns = acc.columns
    ∧ (aliasMapStep acc p).relationships = acc.relationships
    ∧ (aliasMapStep acc p).join_paths = acc.join_paths := by
  unfold aliasMapStep
  rcases p with ⟨tn, ti⟩
  cases ti.alias_ <;> exact ⟨rfl, rfl, rfl, rfl⟩

theorem foldl_aliasStep_fields (ts : Dict TableInfo) :
    ∀ acc : SchemaRegistry,
      (ts.foldl aliasMapStep acc).tables = acc.tables
      ∧ (ts.foldl aliasMapStep acc).columns = acc.columns
      ∧ (ts.foldl aliasMapStep acc).relationships = acc.relationships
      ∧ (ts.foldl aliasMapStep acc).join_paths = acc.join_paths := by
  induction ts with
  | nil => intro acc; exact ⟨rfl, rfl, rfl, rfl⟩
  | cons p rest ih =>
    intro acc
    have h1 := aliasStep_fields acc p
    have h2 := ih (aliasMapStep acc p)
    simp only [List.foldl_cons]
    exact ⟨h2.1.trans h1.1, h2.2.1.trans h1.2.1, h2.2.2.1.trans h1.2.2.1,
           h2.2.2.2.trans h1.2.2.2⟩

theorem addJP_get2_self (r : SchemaRegistry) (st tt sc tc : String) :
    dictGet2 (_add_join_path r st tt sc tc).join_paths st tt
      = some ⟨tt, resolveAlias r.tables tt,
              st ++ "." ++ sc ++ " = " ++ resolveAlias r.tables tt ++ "." ++ tc⟩ := by
  unfold _add_join_path dictGet2
  simp only [dictGet_insert_self]

theorem addJP_get2_other (r : SchemaRegistry) (st tt sc tc s t : String)
    (h : ¬ (st = s ∧ tt = t)) :
    dictGet2 (_add_join_path r st tt sc tc).join_paths s t
      = dictGet2 r.join_paths s t := by
  unfold _add_join_path dictGet2
  by_cases hs : st = s
  · subst hs
    have ht : tt ≠ t := fun he => h ⟨rfl, he⟩
    simp only [dictGet_insert_self]
    rw [dictGet_insert_ne _ _ _ _ ht]
    cases hjp : dictGet r.join_paths st <;> simp [dictGet]
  · rw [dictGet_insert_ne _ _ _ _ hs]

theorem buildStep_get2_preserve (acc : SchemaRegistry) (p : String × Rel) (s t : String)
    (h : ¬ producesPair p.2 s t) :
    dictGet2 (buildJoinPathStep acc p).join_paths s t = dictGet2 acc.join_paths s t := by
  rcases p with ⟨rid, rel⟩
  rcases rel with ⟨st, sc, tt, tc⟩
  cases st <;> cases sc <;> cases tt <;> cases tc <;>
    simp only [buildJoinPathStep] <;> try rfl
  split
  next hc =>
    apply addJP_get2_other
    intro hpair
    apply h
    refine ⟨?_, ?_, ?_⟩
    · simp only [relComplete, optStrTruthy, Bool.and_eq_true, decide_eq_true_eq]
      tauto
    · simp only [hpair.1]
    · simp only [hpair.2]
  next => rfl

theorem foldl_buildStep_get2_preserve (rs : Dict Rel) :
    ∀ (acc : SchemaRegistry) (s t : String),
      (∀ p ∈ rs, ¬ producesPair p.2 s t) →
      dictGet2 (rs.foldl buildJoinPathStep acc).join_paths s t
        = dictGet2 acc.join_paths s t := by
  induction rs with
  | nil => intro acc s t _; rfl
  | cons p rest ih =>
    intro acc s t h
    simp only [List.foldl_cons]
    rw [ih _ s t (fun q hq => h q (List.mem_cons_of_mem p hq))]
    exact buildStep_get2_preserve acc p s t (h p (List.mem_cons_self p rest))

theorem aliasStep_get_preserve (acc : SchemaRegistry) (p : String × TableInfo) (k : String)
    (h : p.2.alias_ ≠ some k) :
    dictGet (aliasMapStep acc p).alias_map k = dictGet acc.alias_map k := by
  unfold aliasMapStep
  rcases p with ⟨tn, ti⟩
  cases hti : ti.alias_ with
  | none => rfl
  | some a =>
    simp only
    have ha : a ≠ k := by intro he; exact h (by rw [hti, he])
    exact dictGet_insert_ne _ _ _ _ ha

theorem foldl_aliasStep_get_preserve (ts : Dict TableInfo) :
    ∀ (acc : SchemaRegistry) (k : String),
      (∀ p ∈ ts, p.2.alias_ ≠ some k) →
      dictGet (ts.foldl aliasMapStep acc).alias_map k = dictGet acc.alias_map k := by
  induction ts with
  | nil => intro acc k _; rfl
  | cons p rest ih =>
    intro acc k h
    simp only [List.foldl_cons]
    rw [ih _ k (fun q hq => h q (List.mem_cons_of_mem p hq))]
    exact aliasStep_get_preserve acc p k (h p (List.mem_cons_self p rest))

theorem addJP_outer_preserve (r : SchemaRegistry) (st tt sc tc s : String) (h : st ≠ s) :
    dictGet (_add_join_path r st tt sc tc).join_paths s = dictGet r.join_paths s := by
  unfold _add_join_path
  exact dictGet_insert_ne _ _ _ _ h

theorem buildStep_outer_preserve (acc : SchemaRegistry) (p : String × Rel) (s : String)
    (h : p.2.source_table ≠ some s) :
    dictGet (buildJoinPathStep acc p).join_paths s = dictGet acc.join_paths s := by
  rcases p with ⟨rid, rel⟩
  rcases rel with ⟨st, sc, tt, tc⟩
  cases st <;> cases sc <;> cases tt <;> cases tc <;>
    simp only [buildJoinPathStep] <;> try rfl
  split
  next hc =>
    apply addJP_outer_preserve
    intro he
    apply h
    simp only [he]
  next => rfl

theorem foldl_buildStep_outer_preserve (rs : Dict Rel) :
    ∀ (acc : SchemaRegistry) (s : String),
      (∀ p ∈ rs, p.2.source_table ≠ some s) →
      dictGet (rs.foldl buildJoinPathStep acc).join_paths s
        = dictGet acc.join_paths s := by
  induction rs with
  | nil => intro acc s _; rfl
  | cons p rest ih =>
    intro acc s h
    simp only [List.foldl_cons]
    rw [ih _ s (fun q hq => h q (List.mem_cons_of_mem p hq))]
    exact buildStep_outer_preserve acc p s (h p (List.mem_cons_self p rest))

/-! ### The table/alias parsing rule shared by `from_table` and `join` -/

theorem startsWithL_map (f : Char → Char) :
    ∀ (p l : List Char), startsWithL l p = true → startsWithL (l.map f) (p.map f) = true := by
  intro p
  induction p with
  | nil => intro l _; cases l <;> simp [startsWithL]
  | cons c cs ih =>
    intro l h
    cases l with
    | nil => simp [startsWithL] at h
    | cons x xs =>
      simp only [startsWithL, Bool.and_eq_true, decide_eq_true_eq] at h
      simp only [List.map_cons, startsWithL, Bool.and_eq_true, decide_eq_true_eq]
      exact ⟨congrArg f h.1, ih xs h.2⟩

theorem containsL_map (f : Char → Char) :
    ∀ (l p : List Char), containsL l p = true → containsL (l.map f) (p.map f) = true := by
  intro l
  induction l with
  | nil =>
    intro p h
    simp only [containsL, List.isEmpty_iff] at h
    simp [h, containsL]
  | cons c cs ih =>
    intro p h
    simp only [containsL, Bool.or_eq_true] at h
    simp only [List.map_cons, containsL, Bool.or_eq_true]
    rcases h with h | h
    · exact Or.inl (by simpa using startsWithL_map f p (c :: cs) h)
    · exact Or.inr (ih p h)

/-- A literal `" AS "` occurrence always also triggers the case-insensitive
check, so the second branch of the table parsing is unreachable. -/
theorem contains_AS_lower (s : String) (h : pyContains s " AS " = true) :
    pyContains (pyLower s) " as " = true := by
  have hm := containsL_map Char.toLower s.data (" AS ".data) h
  have hpat : (" AS ".data.map Char.toLower) = " as ".data := by decide
  rw [hpat] at hm
  exact hm

/-! ### Claims -/

/-- C2 (counterexample): on `"Orders AS O"` both halves are taken from the
lowercased specifier, so the stored table is `"orders"` and the stored alias
`"o"` — not the original-cased trimmed halves `"Orders"` / `"O"` the claim
requires. -/
theorem C2_counterexample :
    (from_table QueryBuilder.empty (TableInput.str "Orders AS O")).from_table
      = some ⟨TableInput.str "orders", some "o"⟩
    ∧ TableInput.str "orders" ≠ TableInput.str "Orders"
    ∧ (some "o" : Option String) ≠ some "O" := by decide

/-- C2 (amended): both `from_table` and `join` store exactly the table and
alias given by the single rule `parseTableRef`: when the lowercased specifier
contains `" as "`, table and alias are the trimmed first and second segments
of the *lowercased* specifier split on `" as "` (original casing lost); for a
non-string input or a string without the separator the whole input becomes
the table and no alias is stored.  The literal `" AS "` branch in the source
is unreachable, and the two call sites behave identically on every input. -/
theorem C2_parse_rule_shared :
    ∀ (qb qb' : QueryBuilder) (t : TableInput) (cond : Option String) (jt : String),
      (from_table qb t).from_table = some (parseTableRef t)
      ∧ (join qb' t cond jt).joins.map (fun j => (j.table, j.alias_))
          = qb'.joins.map (fun j => (j.table, j.alias_))
            ++ [((parseTableRef t).table, (parseTableRef t).alias_)] := by
  intro qb qb' t cond jt
  constructor
  · cases t with
    | expr txt => rfl
    | str s =>
      by_cases h1 : pyContains (pyLower s) " as " = true
      · simp [from_table, parseTableRef, h1]
      · by_cases h2 : pyContains s " AS " = true
        · exact absurd (contains_AS_lower s h2) h1
        · simp [from_table, parseTableRef, h1, h2]
  · cases t with
    | expr txt => simp [join, parseTableRef]
    | str s =>
      by_cases h1 : pyContains (pyLower s) " as " = true
      · simp [join, parseTableRef, h1]
      · by_cases h2 : pyContains s " AS " = true
        · exact absurd (contains_AS_lower s h2) h1
        · simp [join, parseTableRef, h1, h2]

/-- C4: the two-argument form `where(f, v)` appends the condition with
operator `"="` and value `v`; the three-argument form stores operator and
value literally for every explicitly passed value `v`, including falsy ones
such as `""`, `0` or `False`; and the two forms produce the same built SQL
and parameter map. -/
theorem C4_where_forms :
    ∀ (qb : QueryBuilder) (f op : String) (v : Value),
      where_ qb f (some (Value.str op)) (some v)
        = { qb with where_conditions := qb.where_conditions
              ++ [⟨f, some (Value.str op), some v⟩] }
      ∧ where_ qb f (some v) none
        = { qb with where_conditions := qb.where_conditions
              ++ [⟨f, some (Value.str "="), some v⟩] }
      ∧ build (where_ qb f (some v) none)
          = build (where_ qb f (some (Value.str "=")) (some v)) := by
  intro qb f op v
  exact ⟨rfl, rfl, rfl⟩

/-- C5: `SQLGenerator.generate`, applied to the plain record holding the same
seven components, returns exactly the same SQL string and parameter mapping
as `QueryBuilder.build`. -/
theorem C5_generate_eq_build : ∀ qb : QueryBuilder, generate (toAnalyzed qb) = build qb := by
  intro qb
  rfl

/-- C7: `build()` is effect-free on the accumulator — its state-passing form
returns the receiver unchanged — and a second call on that state returns the
identical SQL/parameter pair. -/
theorem C7_build_idempotent :
    ∀ qb : QueryBuilder, (buildM qb).1 = qb ∧ (buildM (buildM qb).1).2 = (buildM qb).2 := by
  intro qb
  exact ⟨rfl, rfl⟩

/-- C10: a `join` call whose condition argument is the falsy empty string
stores no condition, yields exactly the state an omitted condition yields,
and hence builds the same SQL (the JOIN clause carries no ON part). -/
theorem C10_falsy_join_condition :
    ∀ (qb : QueryBuilder) (t : TableInput) (jt : String),
      join qb t (some "") jt = join qb t none jt
      ∧ (join qb t (some "") jt).joins.map (fun j => j.condition)
          = qb.joins.map (fun j => j.condition) ++ [none]
      ∧ build (join qb t (some "") jt) = build (join qb t none jt) := by
  intro qb t jt
  have h1 : join qb t (some "") jt = join qb t none jt := by
    simp [join]
  refine ⟨h1, ?_, by rw [h1]⟩
  rw [h1]
  simp [join]

/-- The parameter dictionary returned by `build` is exactly the WHERE loop's
accumulated dictionary. -/
theorem build_params (qb : QueryBuilder) :
    (build qb).2 = (qb.where_conditions.foldl whereStep ([], [], 0)).2.1 := rfl

/-- C6: after any sequence of `where` calls, the `N` accumulated conditions
receive parameters named `p0 … p{N-1}` in declaration order — the parameter
map pairs the i-th condition's value with `"p" ++ Nat.repr i` — and the `N`
keys are pairwise distinct, whatever the fields, operators and values. -/
theorem C6_param_names :
    ∀ qb : QueryBuilder,
      (build qb).2
        = (qb.where_conditions.zip (List.range qb.where_conditions.length)).map
            (fun pc => ("p" ++ Nat.repr pc.2, pc.1.value))
      ∧ ((build qb).2.map Prod.fst).Nodup := by
  intro qb
  have hp : (build qb).2
      = (qb.where_conditions.zip (List.range qb.where_conditions.length)).map
          (fun pc => ("p" ++ Nat.repr pc.2, pc.1.value)) := by
    rw [build_params,
      foldl_whereStep_params qb.where_conditions [] [] 0 (fun j _ => rfl),
      List.range_eq_range']
    rfl
  refine ⟨hp, ?_⟩
  rw [hp, List.map_map]
  have hcomp :
      ((qb.where_conditions.zip (List.range qb.where_conditions.length)).map
        (Prod.fst ∘ fun pc : Condition × Nat => ("p" ++ Nat.repr pc.2, pc.1.value)))
      = ((qb.where_conditions.zip (List.range qb.where_conditions.length)).map
          Prod.snd).map (fun i => "p" ++ Nat.repr i) := by
    rw [List.map_map]
    rfl
  rw [hcomp, List.map_snd_zip _ _ (by simp)]
  exact (List.nodup_range _).map fun _ _ h => pName_injective h

theorem ite_append_singleton {α : Type} (P : Prop) [Decidable P] (X : List α) (a : α) :
    (if P then X ++ [a] else X) = X ++ (if P then [a] else []) := by
  split <;> simp

/-- C8: for every accumulated state — hence regardless of the order in which
the fluent setters were called — the SQL `build()` returns is the
space-joined clause list in the fixed order SELECT, FROM, JOINs (insertion
order), WHERE, ORDER BY, LIMIT, OFFSET, each optional clause present exactly
when its component is. -/
theorem C8_clause_order :
    ∀ qb : QueryBuilder, (build qb).1 = String.intercalate " " (specOrderedClauses qb) := by
  intro qb
  rcases qb with ⟨sf, ft, js, wc, ob, lm, off⟩
  simp only [build, specOrderedClauses]
  rw [ite_append_singleton, ite_append_singleton]
  rcases ft with _ | ⟨tb, al⟩
  · rcases lm with _ | l <;> rcases off with _ | o <;> simp [List.append_assoc]
  · rcases al with _ | a
    · rcases lm with _ | l <;> rcases off with _ | o <;> simp [List.append_assoc]
    · by_cases h : a ≠ "" <;>
        rcases lm with _ | l <;> rcases off with _ | o <;> simp [h, List.append_assoc]

/-- With no truthy declared alias, `_add_join_path` falls back to the first
character of the target table, lowercased. -/
theorem resolveAlias_falsy (tables : Dict TableInfo) (tt : String)
    (h : optStrTruthy (declaredAlias tables tt) = false) :
    resolveAlias tables tt = pyLower (pyTake tt 1) := by
  unfold resolveAlias
  cases hd : declaredAlias tables tt with
  | none => rfl
  | some a =>
    rw [hd] at h
    simp only [optStrTruthy, decide_eq_false_iff_not, ne_eq, not_not] at h
    simp [h]

/-- C1 (counterexample): on the specification's own example — relationship
`orders.customer_id → customers.id`, no declared alias for `customers` — the
code stores alias `"c"` (`target_table[0].lower()`) and condition
`"orders.customer_id = c.id"`, while `generate_alias("customers") = "cu"`:
`_add_join_path` never calls `generate_alias`. -/
theorem C1_counterexample :
    dictGet2 (register_schema SchemaRegistry.empty
        ⟨[], [], [("r1", ⟨some "orders", some "customer_id", some "customers", some "id"⟩)],
         none⟩).join_paths "orders" "customers"
      = some ⟨"customers", "c", "orders.customer_id = c.id"⟩
    ∧ generate_alias "customers" = "cu"
    ∧ ("c" : String) ≠ "cu" := by decide

/-- C1 (amended): for any prior registry and any registered metadata without
supplied join paths whose relationships contain a complete relationship
`(st, sc, tt, tc)` — with no later relationship deriving the same
`(source, target)` pair and no truthy declared alias on the target table —
`register_schema` stores under `join_paths[st][tt]` the entry whose alias is
the *first character* of the target table, lowercased (not
`generate_alias(tt)`), and whose condition is
`st ++ "." ++ sc ++ " = " ++ alias ++ "." ++ tc`. -/
theorem C1_derived_alias
    (r : SchemaRegistry) (tables : Dict TableInfo) (cols : Dict String)
    (rs₁ rs₂ : Dict Rel) (rid st sc tt tc : String)
    (hst : st ≠ "") (hsc : sc ≠ "") (htt : tt ≠ "") (htc : tc ≠ "")
    (halias : optStrTruthy (declaredAlias tables tt) = false)
    (hrs₂ : ∀ p ∈ rs₂, ¬ producesPair p.2 st tt) :
    dictGet2 (register_schema r
        ⟨tables, cols, rs₁ ++ (rid, ⟨some st, some sc, some tt, some tc⟩) :: rs₂,
         none⟩).join_paths st tt
      = some ⟨tt, pyLower (pyTake tt 1),
              st ++ "." ++ sc ++ " = " ++ pyLower (pyTake tt 1) ++ "." ++ tc⟩ := by
  have hreg : register_schema r
      ⟨tables, cols, rs₁ ++ (rid, ⟨some st, some sc, some tt, some tc⟩) :: rs₂, none⟩
      = _build_join_paths (tables.foldl aliasMapStep
          { r with tables := tables, columns := cols,
                   relationships := rs₁ ++ (rid, ⟨some st, some sc, some tt, some tc⟩) :: rs₂ }) := rfl
  rw [hreg]
  set r0 : SchemaRegistry :=
    { r with tables := tables, columns := cols,
             relationships := rs₁ ++ (rid, ⟨some st, some sc, some tt, some tc⟩) :: rs₂ } with hr0
  set r1 := tables.foldl aliasMapStep r0 with hr1
  have hr1tab : r1.tables = tables := (foldl_aliasStep_fields tables r0).1
  have hr1rel : r1.relationships
      = rs₁ ++ (rid, ⟨some st, some sc, some tt, some tc⟩) :: rs₂ :=
    (foldl_aliasStep_fields tables r0).2.2.1
  unfold _build_join_paths
  rw [hr1rel, List.foldl_append, List.foldl_cons]
  set acc1 := rs₁.foldl buildJoinPathStep r1 with hacc1
  have hacc1tab : acc1.tables = tables := by
    rw [hacc1, (foldl_buildStep_fields rs₁ r1).1, hr1tab]
  have hstep : buildJoinPathStep acc1 (rid, ⟨some st, some sc, some tt, some tc⟩)
      = _add_join_path acc1 st tt sc tc := by
    simp only [buildJoinPathStep]
    rw [if_pos ⟨hst, htt, hsc, htc⟩]
  rw [hstep,
    foldl_buildStep_get2_preserve rs₂ (_add_join_path acc1 st tt sc tc) st tt hrs₂,
    addJP_get2_self, hacc1tab, resolveAlias_falsy tables tt halias]

/-- C1 (witness): the amended theorem applied to the specification's example
input yields alias `"c"` and condition `"orders.customer_id = c.id"`. -/
theorem C1_derived_alias_witness :
    dictGet2 (register_schema SchemaRegistry.empty
        ⟨[], [], [("r1", ⟨some "orders", some "customer_id", some "customers", some "id"⟩)],
         none⟩).join_paths "orders" "customers"
      = some ⟨"customers", "c", "orders.customer_id = c.id"⟩ := by
  have h := C1_derived_alias SchemaRegistry.empty [] [] [] [] "r1"
    "orders" "customer_id" "customers" "id"
    (by decide) (by decide) (by decide) (by decide) (by decide)
    (fun p hp => absurd hp (by simp))
  exact h.trans (by decide)

/-- C3 (counterexample): registering the same empty metadata over two
different prior states leaves different `alias_map`s — the registry state
after `register_schema(m)` is not a function of `m` alone, because
`alias_map` is never cleared. -/
theorem C3_counterexample :
    (register_schema ⟨[], [], [], [], [("zz", "legacy")]⟩ ⟨[], [], [], none⟩).alias_map
      ≠ (register_schema SchemaRegistry.empty ⟨[], [], [], none⟩).alias_map := by decide

/-- C3 (amended): `register_schema` replaces `tables`, `columns` and
`relationships` wholesale and adopts supplied `join_paths` verbatim, but it
*merges* into the prior `alias_map` (entries under aliases not re-declared by
the new metadata survive) and, when deriving join paths, merges into the
prior `join_paths` (entries under source tables no relationship mentions
survive). -/
theorem C3_replace_vs_merge (r : SchemaRegistry) (m : SchemaMetadata) :
    (register_schema r m).tables = m.tables
    ∧ (register_schema r m).columns = m.columns
    ∧ (register_schema r m).relationships = m.relationships
    ∧ (∀ jp, m.join_paths = some jp → (register_schema r m).join_paths = jp)
    ∧ (∀ k t, dictGet r.alias_map k = some t →
        (∀ p ∈ m.tables, p.2.alias_ ≠ some k) →
        dictGet (register_schema r m).alias_map k = some t)
    ∧ (m.join_paths = none → ∀ s inner, dictGet r.join_paths s = some inner →
        (∀ p ∈ m.relationships, p.2.source_table ≠ some s) →
        dictGet (register_schema r m).join_paths s = some inner) := by
  rcases m with ⟨mt, mc, mr, mjp⟩
  set r0 : SchemaRegistry :=
    { r with tables := mt, columns := mc, relationships := mr } with hr0
  set r1 := mt.foldl aliasMapStep r0 with hr1
  have h1 := foldl_aliasStep_fields mt r0
  cases mjp with
  | some jp =>
    have hreg : register_schema r ⟨mt, mc, mr, some jp⟩
        = { r1 with join_paths := jp } := rfl
    rw [hreg]
    refine ⟨h1.1, h1.2.1, h1.2.2.1, ?_, ?_, ?_⟩
    · intro jp' hjp'
      injection hjp' with he
      try (subst he; rfl)
    · intro k t hk hnone
      have hp := foldl_aliasStep_get_preserve mt r0 k hnone
      rw [← hr1] at hp
      show dictGet r1.alias_map k = some t
      rw [hp]
      exact hk
    · intro hnone
      cases hnone
  | none =>
    have hreg : register_schema r ⟨mt, mc, mr, none⟩ = _build_join_paths r1 := rfl
    rw [hreg]
    unfold _build_join_paths
    have h2 := foldl_buildStep_fields r1.relationships r1
    refine ⟨h2.1.trans h1.1, h2.2.1.trans h1.2.1, h2.2.2.1.trans h1.2.2.1, ?_, ?_, ?_⟩
    · intro jp' hjp'
      cases hjp'
    · intro k t hk hnone
      rw [h2.2.2.2]
      have := foldl_aliasStep_get_preserve mt r0 k hnone
      rw [← hr1] at this
      rw [this]
      exact hk
    · intro _ s inner hs hsrc
      have hrel : r1.relationships = mr := h1.2.2.1
      rw [foldl_buildStep_outer_preserve r1.relationships r1 s
        (by rw [hrel]; exact hsrc)]
      rw [h1.2.2.2]
      exact hs

/-- C3 (witness): with a prior registry carrying a stale alias and a stale
join path, registering fresh metadata replaces the three metadata maps but
keeps both stale entries. -/
theorem C3_replace_vs_merge_witness :
    (register_schema ⟨[], [], [], [("olds", [("t", ⟨"t", "x", "c"⟩)])], [("zz", "legacy")]⟩
        ⟨[("t1", ⟨some "a1"⟩)], [("t1", "cm")],
         [("r1", ⟨some "x", some "xc", some "y", some "yc"⟩)], none⟩).tables
      = [("t1", ⟨some "a1"⟩)]
    ∧ dictGet (register_schema ⟨[], [], [], [("olds", [("t", ⟨"t", "x", "c"⟩)])],
          [("zz", "legacy")]⟩
        ⟨[("t1", ⟨some "a1"⟩)], [("t1", "cm")],
         [("r1", ⟨some "x", some "xc", some "y", some "yc"⟩)], none⟩).alias_map "zz"
      = some "legacy"
    ∧ dictGet (register_schema ⟨[], [], [], [("olds", [("t", ⟨"t", "x", "c"⟩)])],
          [("zz", "legacy")]⟩
        ⟨[("t1", ⟨some "a1"⟩)], [("t1", "cm")],
         [("r1", ⟨some "x", some "xc", some "y", some "yc"⟩)], none⟩).join_paths "olds"
      = some [("t", ⟨"t", "x", "c"⟩)] := by
  have h := C3_replace_vs_merge
    ⟨[], [], [], [("olds", [("t", ⟨"t", "x", "c"⟩)])], [("zz", "legacy")]⟩
    ⟨[("t1", ⟨some "a1"⟩)], [("t1", "cm")],
     [("r1", ⟨some "x", some "xc", some "y", some "yc"⟩)], none⟩
  exact ⟨h.1, h.2.2.2.2.1 "zz" "legacy" (by decide) (by decide),
         h.2.2.2.2.2 rfl "olds" [("t", ⟨"t", "x", "c"⟩)] (by decide) (by decide)⟩

/-- An incomplete relationship (any of the four values absent or empty) is
skipped by the join-path loop. -/
theorem buildStep_skip (acc : SchemaRegistry) (rid : String) (rel : Rel)
    (h : relComplete rel = false) : buildJoinPathStep acc (rid, rel) = acc := by
  rcases rel with ⟨a, b, c, d⟩
  cases a <;> cases b <;> cases c <;> cases d <;> simp only [buildJoinPathStep] <;> try rfl
  rw [if_neg]
  intro hc
  rcases hc with ⟨h1, h2, h3, h4⟩
  simp [relComplete, optStrTruthy, h1, h2, h3, h4] at h

/-- C9 (counterexample): a relationship in which all four fields are
*present* but `source_column` is the empty string derives no join path at
all — presence is not enough, the code tests truthiness. -/
theorem C9_counterexample :
    (⟨some "a", some "", some "b", some "id"⟩ : Rel).source_table ≠ none
    ∧ (⟨some "a", some "", some "b", some "id"⟩ : Rel).source_column ≠ none
    ∧ (⟨some "a", some "", some "b", some "id"⟩ : Rel).target_table ≠ none
    ∧ (⟨some "a", some "", some "b", some "id"⟩ : Rel).target_column ≠ none
    ∧ (register_schema SchemaRegistry.empty
        ⟨[], [], [("r1", ⟨some "a", some "", some "b", some "id"⟩)], none⟩).join_paths
      = [] := by decide

/-- C9 (amended): during derivation a relationship whose four fields are all
present *and non-empty* yields exactly one `join_paths[st][tt]` entry, while
a relationship failing that test is silently skipped, leaving `join_paths`
untouched; the registration itself is total and never fails. -/
theorem C9_complete_rel_paths (tables : Dict TableInfo) (cols : Dict String)
    (rid : String) (rel : Rel) :
    (∀ st sc tt tc, rel = ⟨some st, some sc, some tt, some tc⟩ →
      st ≠ "" → sc ≠ "" → tt ≠ "" → tc ≠ "" →
      (register_schema SchemaRegistry.empty ⟨tables, cols, [(rid, rel)], none⟩).join_paths
        = [(st, [(tt, ⟨tt, resolveAlias tables tt,
            st ++ "." ++ sc ++ " = " ++ resolveAlias tables tt ++ "." ++ tc⟩)])])
    ∧ (relComplete rel = false →
      (register_schema SchemaRegistry.empty ⟨tables, cols, [(rid, rel)], none⟩).join_paths
        = []) := by
  set r0 : SchemaRegistry := { SchemaRegistry.empty with tables := tables, columns := cols, relationships := [(rid, rel)] } with hr0
  set r1 := tables.foldl aliasMapStep r0 with hr1
  have hreg : register_schema SchemaRegistry.empty ⟨tables, cols, [(rid, rel)], none⟩
      = _build_join_paths r1 := rfl
  have h1 := foldl_aliasStep_fields tables r0
  have hjp : r1.join_paths = [] := h1.2.2.2
  have htab : r1.tables = tables := h1.1
  have hrel : r1.relationships = [(rid, rel)] := h1.2.2.1
  have hbuild : _build_join_paths r1 = buildJoinPathStep r1 (rid, rel) := by
    unfold _build_join_paths
    rw [hrel]
    rfl
  constructor
  · intro st sc tt tc he h1' h2' h3' h4'
    subst he
    rw [hreg, hbuild]
    have hstep : buildJoinPathStep r1 (rid, ⟨some st, some sc, some tt, some tc⟩)
        = _add_join_path r1 st tt sc tc := by
      simp only [buildJoinPathStep]
      rw [if_pos ⟨h1', h3', h2', h4'⟩]
    rw [hstep]
    simp only [_add_join_path, hjp, htab]
    simp [dictGet, dictInsert]
  · intro hfalse
    rw [hreg, hbuild, buildStep_skip r1 rid rel hfalse]
    exact hjp

/-- C9 (witness): the amended theorem at a complete relationship (one entry)
and at a relationship lacking its source column (skipped). -/
theorem C9_complete_rel_paths_witness :
    (register_schema SchemaRegistry.empty
        ⟨[], [], [("j1", ⟨some "invoices", some "user_id", some "users", some "id"⟩)],
         none⟩).join_paths
      = [("invoices", [("users", ⟨"users", "u", "invoices.user_id = u.id"⟩)])]
    ∧ (register_schema SchemaRegistry.empty
        ⟨[], [], [("j2", ⟨some "a", none, some "b", some "id"⟩)], none⟩).join_paths
      = [] := by
  constructor
  · have h := (C9_complete_rel_paths [] [] "j1"
      ⟨some "invoices", some "user_id", some "users", some "id"⟩).1
      "invoices" "user_id" "users" "id" rfl
      (by decide) (by decide) (by decide) (by decide)
    exact h.trans (by decide)
  · exact (C9_complete_rel_paths [] [] "j2" ⟨some "a", none, some "b", some "id"⟩).2
      (by decide)

end PyQB
